import Mathlib

/-!
Verification development for the PulseResQ facility ranking and escalation
dispatcher (src/server.js, src/server1.js).

Modelling conventions:
* JavaScript numbers used as coordinates and distances are modelled as `ℚ`.
  The haversine formula itself mixes floating-point trigonometry, so the
  distance computation is abstracted into a parameter
  `dist : ℚ → ℚ → ℚ → ℚ → ℚ`; every ranking statement is proved for all
  such functions, since the ranking logic only compares the computed values.
* JavaScript falsiness is modelled explicitly (`jsOrNat`, `truthyQ`,
  `jsTruthyStr`): `undefined`, `0` and the empty string are falsy; note that
  Express query parameters are strings, so the string "0" is truthy.
* A JavaScript runtime exception (a TypeError from dereferencing `null`)
  is modelled with `Except JsError`.
* Network effects (webhook responses) are abstracted into an oracle
  `wres : Hospital → Bool` giving, for hospitals that have a webhook,
  whether the webhook reply carried `accepted: true`; an axios transport
  error has the same observable shape as a non-accepting reply
  (`accepted: false`), so both collapse into `wres h = false`.
* Wall-clock sleeping (`await new Promise(r => setTimeout(r, ms))`) is
  modelled by accounting the slept milliseconds in `totalSleepMs`.
-/

namespace PulseResQ

/-- JS `x || d` for an optional number: `undefined` and `0` are falsy. -/
def jsOrNat (x : Option Nat) (d : Nat) : Nat :=
  match x with
  | none => d
  | some n => if n = 0 then d else n

/-- JS truthiness of an optional number (`undefined` and `0` are falsy). -/
def truthyQ (x : Option ℚ) : Bool :=
  match x with
  | none => false
  | some q => q != 0

/-- JS `a || b` for optional numbers, as in `el.lat || el.center?.lat`. -/
def jsOrQ (a b : Option ℚ) : Option ℚ :=
  match a with
  | none => b
  | some q => if q = 0 then b else some q

/-- JS `a || d` for an optional string with a string default,
as in `el.tags?.name || "Unknown Hospital"`. -/
def jsOrStr (a : Option String) (d : String) : String :=
  match a with
  | none => d
  | some s => if s = "" then d else s

/-- JS truthiness of an optional string: `undefined` and `""` are falsy;
every non-empty string, including "0", is truthy. -/
def jsTruthyStr (x : Option String) : Bool :=
  match x with
  | none => false
  | some s => s != ""

/-- A facility as consumed by the dispatcher in src/server.js:
`{ name, lat, lon, phone, webhook, email }`.  Coordinates are omitted here
because the dispatcher never reads them; the contact channels drive all
of its branching. -/
structure Hospital where
  name : String
  webhook : Option String
  phone : Option String
  email : Option String
deriving DecidableEq, Repr

/-- Channel kind of an attempt record: src/server.js pushes records whose
channel field is the literal webhook or the literal fallback. -/
inductive Channel
  | webhook
  | fallback
deriving DecidableEq, Repr

/-- One entry of the attemptsLog in notifyHospitalsPhased.  The raw and
result payloads are elided: only the channel, the hospital and the
accepted flag are read downstream.  Fallback records are never treated
as acceptance, so their flag is false. -/
structure Attempt where
  channel : Channel
  hospital : Hospital
  accepted : Bool
deriving DecidableEq, Repr

/-- The resolved value of one `sendWebhook` promise when the hospital has a
webhook: `{ accepted, hospital, ... }`. -/
structure Settled where
  hospital : Hospital
  accepted : Bool
deriving DecidableEq, Repr

/-- A JavaScript runtime exception. -/
inductive JsError
  | typeError
deriving DecidableEq, Repr

/-- The value returned by `notifyHospitalsPhased`
(`{ acceptedHospital, attempts }`), extended with the accounted sleeping
time of the acceptance-window waits. -/
structure PhasedResult where
  acceptedHospital : Option Hospital
  attempts : List Attempt
  totalSleepMs : Nat
deriving DecidableEq, Repr

/-- src/server.js `sendWebhook`: returns `null` when the hospital has no
webhook, otherwise a settled object whose `accepted` flag is `true` exactly
when the webhook reply carried `accepted: true` (transport errors resolve to
`accepted: false`, never reject). -/
def sendWebhook (wres : Hospital → Bool) (h : Hospital) : Option Settled :=
  match h.webhook with
  | none => none
  | some _ => some ⟨h, wres h⟩

/-- The webhook attempt records pushed for one batch: one per settled
webhook promise, carrying its hospital and accepted flag. -/
def webhookRecords (s : List Settled) : List Attempt :=
  s.map fun x => ⟨Channel.webhook, x.hospital, x.accepted⟩

/-- The fallback attempt records pushed for one batch, one per hospital;
the SMS / WhatsApp / voice / email sends never signal acceptance. -/
def fallbackRecords (batch : List Hospital) : List Attempt :=
  batch.map fun h => ⟨Channel.fallback, h, false⟩

/-- The chunking loop `for (let i = 0; i < hospitals.length; i += batchSize)`
with batch `hospitals.slice(i, i + batchSize)`.  `k` is `batchSize - 1` and
`fuel` bounds the number of iterations; `chunks` supplies `fuel = l.length`,
which always suffices since every iteration consumes at least one element.
Fuel keeps the recursion structural, hence kernel-reducible. -/
def chunksGo (k : Nat) : Nat → List α → List (List α)
  | _, [] => []
  | 0, _ :: _ => []
  | fuel + 1, x :: xs => (x :: xs.take k) :: chunksGo k fuel (xs.drop k)

/-- Partition `l` into consecutive slices of size `b` (last one possibly
shorter), as the dispatcher loop does with `batchSize = b`.  All call sites
pass `b ≥ 1` (the JS default is `options.batchSize || 3`); the JS loop would
not terminate for `batchSize ≤ 0`, which is outside the model. -/
def chunks (b : Nat) (l : List α) : List (List α) :=
  chunksGo (b - 1) l.length l

/-- The batch loop of `notifyHospitalsPhased` (src/server.js lines 146-192).
Per batch: fire all webhooks (`settled`), log them — the `forEach` throws a
TypeError when any settled entry is `null`, i.e. when some hospital in the
batch has no webhook, discarding the log —, return on the first accepting
entry, otherwise push one fallback record per hospital, sleep the full
acceptance window and continue with the next batch. -/
def runBatches (wres : Hospital → Bool) (wait : Nat) :
    List (List Hospital) → List Attempt → Nat → Except JsError PhasedResult
  | [], log, slept => Except.ok ⟨none, log, slept⟩
  | batch :: rest, log, slept =>
    let settled := batch.map (sendWebhook wres)
    if settled.any Option.isNone then Except.error JsError.typeError
    else
      let vals := settled.filterMap id
      let log1 := log ++ webhookRecords vals
      match vals.find? (fun s => s.accepted) with
      | some s => Except.ok ⟨some s.hospital, log1, slept⟩
      | none => runBatches wres wait rest (log1 ++ fallbackRecords batch) (slept + wait)

/-- src/server.js `notifyHospitalsPhased(hospitals, patient, options)`.
The patient payload only feeds message strings, which are elided.
`options.batchSize || 3` and `options.waitForAcceptanceMs || 90_000` are the
JS defaults (`webhookTimeout` only parameterises the network call, which the
oracle absorbs). -/
def notifyHospitalsPhased (wres : Hospital → Bool)
    (optBatchSize optWaitMs : Option Nat) (hospitals : List Hospital) :
    Except JsError PhasedResult :=
  runBatches wres (jsOrNat optWaitMs 90000)
    (chunks (jsOrNat optBatchSize 3) hospitals) [] 0

/-- Responses of the `/notify-hospitals` route in src/server.js. -/
inductive NotifyResponse
  | badRequest
  | success (h : Hospital) (attempts : List Attempt)
  | gatewayTimeout (attempts : List Attempt)
  | serverError
deriving DecidableEq, Repr

/-- The candidate list the route hands to the dispatcher: nearest first,
then the alternatives, truncated to the first 50 entries by slice(0, 50). -/
def notifyRouteList (nearest : Hospital) (alternatives : List Hospital) :
    List Hospital :=
  (nearest :: alternatives).take 50

/-- The `/notify-hospitals` route (src/server.js lines 198-220): reject when
`nearest` or `patient` is missing, otherwise escalate over the truncated
list with `batchSize 3` and a 90s acceptance window; a thrown error is
caught and answered with status 500. -/
def notifyRoute (wres : Hospital → Bool) (nearest : Option Hospital)
    (alternatives : List Hospital) (patientPresent : Bool) : NotifyResponse :=
  match nearest, patientPresent with
  | some n, true =>
    match notifyHospitalsPhased wres (some 3) (some 90000)
        (notifyRouteList n alternatives) with
    | Except.error _ => NotifyResponse.serverError
    | Except.ok r =>
      match r.acceptedHospital with
      | some h => NotifyResponse.success h r.attempts
      | none => NotifyResponse.gatewayTimeout r.attempts
  | _, _ => NotifyResponse.badRequest

/-! ### Case-insensitive substring matching (the /i regexes over literal
alternations in the lookup routes) -/

/-- ASCII lowering of one character, enough for the /i flag on the ASCII
keyword literals of the routes. -/
def lowerChar (c : Char) : Char :=
  if 'A' ≤ c && c ≤ 'Z' then Char.ofNat (c.toNat + 32) else c

/-- Does `hay` start with `needle` (character lists)? -/
def startsWithL : List Char → List Char → Bool
  | [], _ => true
  | _ :: _, [] => false
  | c :: cs, d :: ds => c == d && startsWithL cs ds

/-- Does `hay` contain `needle` as a contiguous run (character lists)? -/
def containsL (needle : List Char) : List Char → Bool
  | [] => needle.isEmpty
  | d :: ds => startsWithL needle (d :: ds) || containsL needle ds

/-- Case-insensitive substring test: `pat` is expected lowercase. -/
def containsCI (s pat : String) : Bool :=
  containsL pat.data (s.data.map lowerChar)

/-! ### The capability (cardio) filters of the lookup routes (claim C2) -/

/-- The OSM tags the filters read: `tags.name` and
`tags["healthcare:speciality"]`. -/
structure OsmTags where
  name : Option String
  speciality : Option String
deriving DecidableEq, Repr

/-- An Overpass element as seen by `/realtime-hospital`: `el.tags` may be
absent; coordinates are irrelevant to the filter decision modelled here. -/
structure RtEl where
  tags : Option OsmTags
deriving DecidableEq, Repr

/-- The `/realtime-hospital` cardio predicate (src/server.js lines 498-503):
`el.tags && ((el.tags.name && /heart|cardio|hospital/i.test(el.tags.name)) ||
(el.tags["healthcare:speciality"] && /cardio|heart/i.test(...)))`. -/
def rtCardioTest (el : RtEl) : Bool :=
  match el.tags with
  | none => false
  | some t =>
    (match t.name with
     | none => false
     | some n => containsCI n "heart" || containsCI n "cardio" || containsCI n "hospital")
    ||
    (match t.speciality with
     | none => false
     | some sp => containsCI sp "cardio" || containsCI sp "heart")

/-- Outcomes of `/realtime-hospital` after the Overpass lookup returned
`elements` (src/server.js lines 493-510): 404 when no elements, 404
"No IHD-capable hospitals nearby." when the cardio filter leaves nothing,
otherwise the first surviving element is taken as `nearest`. -/
inductive RealtimeOutcome
  | noHospitals
  | noIhdCapable
  | result (nearest : RtEl)
deriving DecidableEq, Repr

/-- The filter-and-select core of `/realtime-hospital`. -/
def realtimeHospital (elements : List RtEl) : RealtimeOutcome :=
  if elements.isEmpty then RealtimeOutcome.noHospitals
  else
    match elements.filter rtCardioTest with
    | [] => RealtimeOutcome.noIhdCapable
    | h :: _ => RealtimeOutcome.result h

/-- The name predicate of the second `/nearest-hospital` variant
(src/server.js line 575): `h.tags.name && /cardio|heart|hospital/i.test(h.tags.name)`. -/
def heartNameTest (t : OsmTags) : Bool :=
  match t.name with
  | none => false
  | some n => containsCI n "cardio" || containsCI n "heart" || containsCI n "hospital"

/-- Outcome of the second `/nearest-hospital` variant after the filter
(src/server.js lines 574-585): when the filtered list is empty the route
answers "No nearby hospital with heart facilities found." and never falls
back to the unfiltered list; otherwise it goes on to rank `results`. -/
inductive HeartLookupOutcome
  | noneFound
  | proceeds (results : List OsmTags)
deriving DecidableEq, Repr

/-- The filter-and-decide core of the second `/nearest-hospital` variant. -/
def nearestHeart (elements : List OsmTags) : HeartLookupOutcome :=
  match elements.filter heartNameTest with
  | [] => HeartLookupOutcome.noneFound
  | h :: t => HeartLookupOutcome.proceeds (h :: t)

/-! ### The coordinate presence checks of the lookup routes (claims C8, C9) -/

/-- Decision of `const { lat, lon } = req.query; if (!lat || !lon) ...`
shared by `/nearest-hospital` (src/server.js line 227, src/server1.js
line 54) and `/realtime-hospital` (src/server.js line 474).  Express query
parameters are strings, so truthiness is string truthiness. -/
inductive QueryCheck
  | inputError
  | proceeds (lat lon : String)
deriving DecidableEq, Repr

/-- The synchronous input check the routes run before any lookup or ranking
work: reject iff either query string is absent or empty. -/
def nearestHospitalCheck (lat lon : Option String) : QueryCheck :=
  if jsTruthyStr lat && jsTruthyStr lon then
    QueryCheck.proceeds (lat.getD "") (lon.getD "")
  else QueryCheck.inputError

/-! ### The src/server1.js /nearest-hospital ranking pipeline (claim C4) -/

/-- An Overpass element as mapped by src/server1.js lines 72-79:
`{ id, name, lat: el.lat || el.center?.lat, lon: ..., tags }`. -/
structure S1El where
  id : Nat
  name : Option String
  lat : Option ℚ
  lon : Option ℚ
  centerLat : Option ℚ
  centerLon : Option ℚ
deriving DecidableEq, Repr

/-- Intermediate candidate after the first map: resolved JS-or coordinates,
still optional (and possibly zero, hence still droppable by truthiness). -/
structure S1Cand where
  id : Nat
  name : String
  lat : Option ℚ
  lon : Option ℚ
deriving DecidableEq, Repr

/-- A ranked hospital carrying its computed distance. -/
structure S1H where
  id : Nat
  name : String
  lat : ℚ
  lon : ℚ
  distance : ℚ
deriving DecidableEq, Repr

/-- First map of the pipeline (src/server1.js lines 72-79). -/
def s1Mapped (els : List S1El) : List S1Cand :=
  els.map fun el =>
    ⟨el.id, jsOrStr el.name "Unknown Hospital",
      jsOrQ el.lat el.centerLat, jsOrQ el.lon el.centerLon⟩

/-- The coordinate filter of the pipeline, which tests h.lat and h.lon by
JS number truthiness, so zero coordinates are dropped too. -/
def s1Filtered (els : List S1El) : List S1Cand :=
  (s1Mapped els).filter fun c => truthyQ c.lat && truthyQ c.lon

/-- Second map: attach `distance_km = haversineKm(lat, lon, h.lat, h.lon)`;
the numeric distance function is abstracted as `dist`. -/
def s1WithDist (dist : ℚ → ℚ → ℚ → ℚ → ℚ) (qlat qlon : ℚ)
    (els : List S1El) : List S1H :=
  (s1Filtered els).map fun c =>
    ⟨c.id, c.name, c.lat.getD 0, c.lon.getD 0,
      dist qlat qlon (c.lat.getD 0) (c.lon.getD 0)⟩

/-- The sort key relation of `.sort((a, b) => a.distance_km - b.distance_km)`. -/
def distLE (a b : S1H) : Prop := a.distance ≤ b.distance

instance : DecidableRel distLE :=
  fun a b => inferInstanceAs (Decidable (a.distance ≤ b.distance))

instance : IsTotal S1H distLE := ⟨fun a b => le_total a.distance b.distance⟩

instance : IsTrans S1H distLE := ⟨fun _ _ _ h h2 => le_trans h h2⟩

/-- The full pipeline up to the sort.  `Array.prototype.sort` is stable and
compares by `distance_km`; any stable sort by the same key computes the same
list, so insertion sort (which inserts behind earlier equal keys) models it. -/
def s1Ranked (dist : ℚ → ℚ → ℚ → ℚ → ℚ) (qlat qlon : ℚ)
    (els : List S1El) : List S1H :=
  List.insertionSort distLE (s1WithDist dist qlat qlon els)

/-- The route response body: `results.slice(0, 30)`. -/
def s1Response (dist : ℚ → ℚ → ℚ → ℚ → ℚ) (qlat qlon : ℚ)
    (els : List S1El) : List S1H :=
  (s1Ranked dist qlat qlon els).take 30

/-! ### The src/server.js /nearest-hospital ranking pipeline, first variant
(lines 270-281), also part of claim C4 -/

/-- An Overpass element as consumed by the first `/nearest-hospital`
variant: `el.tags?.name`, `el.tags?.official_name`, and node or center
coordinates. -/
structure NhEl where
  name : Option String
  officialName : Option String
  lat : Option ℚ
  lon : Option ℚ
  centerLat : Option ℚ
  centerLon : Option ℚ
deriving DecidableEq, Repr

/-- A mapped hospital of that pipeline: resolved name, JS-or coordinates
(still optional and possibly zero, hence still droppable), and the
distance computed already in the map.  The distance is `none` when a
coordinate is missing, modelling the NaN that the JS haversine yields on
undefined input; such entries are dropped by the following coordinate
filter, so that value is never compared. -/
structure NhH where
  name : String
  lat : Option ℚ
  lon : Option ℚ
  distance : Option ℚ
deriving DecidableEq, Repr

/-- The map stage (src/server.js lines 270-278): name fallback chain
`el.tags?.name || el.tags?.official_name || "Unnamed Hospital"`,
coordinates `el.lat || el.center?.lat` (and lon alike), and the computed
distance. -/
def nhMapped (dist : ℚ → ℚ → ℚ → ℚ → ℚ) (qlat qlon : ℚ)
    (els : List NhEl) : List NhH :=
  els.map fun el =>
    let la := jsOrQ el.lat el.centerLat
    let lo := jsOrQ el.lon el.centerLon
    ⟨jsOrStr el.name (jsOrStr el.officialName "Unnamed Hospital"), la, lo,
      match la, lo with
      | some a, some b => some (dist qlat qlon a b)
      | _, _ => none⟩

/-- The coordinate filter `.filter((h) => h.lat && h.lon)` of the first
variant — JS number truthiness, so zero coordinates are dropped too. -/
def nhFiltered (dist : ℚ → ℚ → ℚ → ℚ → ℚ) (qlat qlon : ℚ)
    (els : List NhEl) : List NhH :=
  (nhMapped dist qlat qlon els).filter fun h => truthyQ h.lat && truthyQ h.lon

/-- The sort key relation of `.sort((a, b) => a.distance - b.distance)` in
the first variant; every survivor of the coordinate filter carries a
computed distance, so the default is never the compared value there. -/
def nhLE (a b : NhH) : Prop := a.distance.getD 0 ≤ b.distance.getD 0

instance : DecidableRel nhLE :=
  fun a b => inferInstanceAs (Decidable (a.distance.getD 0 ≤ b.distance.getD 0))

instance : IsTotal NhH nhLE := ⟨fun a b => le_total (a.distance.getD 0) (b.distance.getD 0)⟩

instance : IsTrans NhH nhLE := ⟨fun _ _ _ h h2 => le_trans h h2⟩

/-- The sorted pipeline of the first variant (stable JS sort by distance,
modelled by insertion sort as for server1). -/
def nhRanked (dist : ℚ → ℚ → ℚ → ℚ → ℚ) (qlat qlon : ℚ)
    (els : List NhEl) : List NhH :=
  List.insertionSort nhLE (nhFiltered dist qlat qlon els)

/-- The response of the first variant: `.slice(0, 3)`, only the 3 closest. -/
def nhResponse (dist : ℚ → ℚ → ℚ → ℚ → ℚ) (qlat qlon : ℚ)
    (els : List NhEl) : List NhH :=
  (nhRanked dist qlat qlon els).take 3

/-! ### Concrete fixtures used by witnesses and counterexamples -/

/-- A hospital exposing a webhook endpoint. -/
def hWebhook : Hospital := ⟨"Webhook General", some "http://hospital-a/webhook", none, none⟩

/-- A second hospital exposing a webhook endpoint. -/
def hSecond : Hospital := ⟨"Second General", some "http://hospital-b/webhook", none, none⟩

/-- A hospital with no usable channel at all. -/
def hNoChannel : Hospital := ⟨"Rural Clinic", none, none, none⟩

/-- A webhook oracle under which exactly `hSecond` accepts. -/
def wresSecond (h : Hospital) : Bool := h.name == "Second General"

/-- A webhook oracle under which nobody accepts. -/
def wresNobody (_ : Hospital) : Bool := false

/-! ### Lemmas about the batch partition (claim C7) -/

theorem chunksGo_nil {α : Type} (k fuel : Nat) : chunksGo k fuel ([] : List α) = [] := by
  cases fuel <;> rfl

theorem chunksGo_flatten {α : Type} (k : Nat) :
    ∀ (fuel : Nat) (l : List α), l.length ≤ fuel →
      (chunksGo k fuel l).flatten = l := by
  intro fuel
  induction fuel with
  | zero =>
    intro l hl
    cases l with
    | nil => rfl
    | cons x xs => simp at hl
  | succ fuel ih =>
    intro l hl
    cases l with
    | nil => rfl
    | cons x xs =>
      have hrec : (xs.drop k).length ≤ fuel := by
        simp only [List.length_drop]
        simp only [List.length_cons] at hl
        omega
      simp only [chunksGo, List.flatten_cons, ih (xs.drop k) hrec]
      simp [List.take_append_drop]

theorem chunksGo_length {α : Type} (k : Nat) :
    ∀ (fuel : Nat) (l : List α), l.length ≤ fuel →
      (chunksGo k fuel l).length = (l.length + k) / (k + 1) := by
  intro fuel
  induction fuel with
  | zero =>
    intro l hl
    cases l with
    | nil => simp [chunksGo, Nat.div_eq_of_lt]
    | cons x xs => simp at hl
  | succ fuel ih =>
    intro l hl
    cases l with
    | nil => simp [chunksGo, Nat.div_eq_of_lt]
    | cons x xs =>
      have hrec : (xs.drop k).length ≤ fuel := by
        simp only [List.length_drop]
        simp only [List.length_cons] at hl
        omega
      simp only [chunksGo, List.length_cons, ih (xs.drop k) hrec, List.length_drop]
      rcases le_or_lt k xs.length with hk | hk
      · have h1 : xs.length - k + k = xs.length := by omega
        have h2 : xs.length + 1 + k = xs.length + (k + 1) := by omega
        rw [h1, h2, Nat.add_div_right _ (Nat.succ_pos k)]
      · have h1 : xs.length - k = 0 := by omega
        rw [h1]
        have h2 : (0 + k) / (k + 1) = 0 := Nat.div_eq_of_lt (by omega)
        rw [h2]
        have h3 : (xs.length + 1 + k) / (k + 1) = 1 :=
          Nat.div_eq_of_lt_le (by omega) (by omega)
        omega

theorem chunksGo_sizes {α : Type} (k : Nat) :
    ∀ (fuel : Nat) (l : List α), l.length ≤ fuel →
      ∀ c ∈ chunksGo k fuel l, 0 < c.length ∧ c.length ≤ k + 1 := by
  intro fuel
  induction fuel with
  | zero =>
    intro l hl c hc
    cases l with
    | nil => simp [chunksGo] at hc
    | cons x xs => simp at hl
  | succ fuel ih =>
    intro l hl c hc
    cases l with
    | nil => simp [chunksGo] at hc
    | cons x xs =>
      have hrec : (xs.drop k).length ≤ fuel := by
        simp only [List.length_drop]
        simp only [List.length_cons] at hl
        omega
      simp only [chunksGo, List.mem_cons] at hc
      rcases hc with hc | hc
      · subst hc
        constructor
        · simp
        · simp only [List.length_cons, List.length_take]
          omega
      · exact ih (xs.drop k) hrec c hc

theorem chunksGo_dropLast {α : Type} (k : Nat) :
    ∀ (fuel : Nat) (l : List α), l.length ≤ fuel →
      ∀ c ∈ (chunksGo k fuel l).dropLast, c.length = k + 1 := by
  intro fuel
  induction fuel with
  | zero =>
    intro l hl c hc
    cases l with
    | nil => simp [chunksGo] at hc
    | cons x xs => simp at hl
  | succ fuel ih =>
    intro l hl c hc
    cases l with
    | nil => simp [chunksGo] at hc
    | cons x xs =>
      have hrec : (xs.drop k).length ≤ fuel := by
        simp only [List.length_drop]
        simp only [List.length_cons] at hl
        omega
      simp only [chunksGo] at hc
      cases hrest : chunksGo k fuel (xs.drop k) with
      | nil => rw [hrest] at hc; simp at hc
      | cons r rs =>
        rw [hrest] at hc
        rw [List.dropLast_cons₂] at hc
        rcases List.mem_cons.mp hc with hc | hc
        · subst hc
          have hne : xs.drop k ≠ [] := by
            intro hnil
            rw [hnil, chunksGo_nil] at hrest
            exact List.noConfusion hrest
          have hklt : k < xs.length := by
            by_contra hge
            exact hne (List.drop_eq_nil_of_le (by omega))
          simp only [List.length_cons, List.length_take]
          omega
        · have := ih (xs.drop k) hrec c
          rw [hrest] at this
          exact this hc

/-- C7: for every ranked list of n candidates and every batchSize b > 0, the
dispatcher loop partitions the list into ceil(n/b) consecutive batches
preserving order, each of size b except possibly the last (which is
non-empty and no longer than b). -/
theorem c7_batch_partition {α : Type} (b : Nat) (hb : 0 < b) (l : List α) :
    (chunks b l).flatten = l
    ∧ (chunks b l).length = (l.length + b - 1) / b
    ∧ (∀ c ∈ (chunks b l).dropLast, c.length = b)
    ∧ (∀ c ∈ chunks b l, 0 < c.length ∧ c.length ≤ b) := by
  have hk : b - 1 + 1 = b := by omega
  unfold chunks
  refine ⟨chunksGo_flatten _ _ _ le_rfl, ?_, ?_, ?_⟩
  · rw [chunksGo_length _ _ _ le_rfl, hk]
    congr 1
    omega
  · intro c hc
    rw [← hk]
    exact chunksGo_dropLast _ _ _ le_rfl c hc
  · intro c hc
    rw [← hk]
    exact chunksGo_sizes _ _ _ le_rfl c hc

/-- Witness for C7 at batchSize 3 and 7 candidates: 3 batches that flatten
back to the input. -/
theorem c7_batch_partition_witness :
    0 < 3 ∧ (chunks 3 [0, 1, 2, 3, 4, 5, 6]).flatten = [0, 1, 2, 3, 4, 5, 6] :=
  ⟨by decide, (c7_batch_partition 3 (by decide) [0, 1, 2, 3, 4, 5, 6]).1⟩

/-- C6: an empty candidate list makes the dispatcher terminate immediately
with no accepted hospital (the EXHAUSTED outcome), an empty attempt log,
no sleeping and no exception, for every oracle and every option object. -/
theorem c6_empty_exhausted (wres : Hospital → Bool) (ob ow : Option Nat) :
    notifyHospitalsPhased wres ob ow [] =
      Except.ok ⟨none, [], 0⟩ := by
  simp [notifyHospitalsPhased, chunks, chunksGo, runBatches]

/-- C3 (code evaluated at the failing input): a batch containing a facility
with no usable channel does not produce a single no-comm-path attempt
record — `sendWebhook` resolves to `null` and the `forEach` that logs the
batch dereferences `null.hospital`, so the whole dispatcher run throws a
TypeError (the route answers 500 and the session dies). -/
theorem c3_no_channel_crash :
    notifyHospitalsPhased wresNobody none none [hNoChannel] =
      Except.error JsError.typeError := rfl

/-! ### Helper lemmas about the dispatcher loop -/

theorem sendWebhook_eq_some {wres : Hospital → Bool} {h : Hospital} {s : Settled}
    (hs : sendWebhook wres h = some s) :
    s.hospital = h ∧ s.accepted = wres h ∧ h.webhook.isSome = true := by
  unfold sendWebhook at hs
  cases hw : h.webhook with
  | none => rw [hw] at hs; exact Option.noConfusion hs
  | some u =>
    rw [hw] at hs
    have := Option.some.inj hs
    subst this
    simp [hw]

theorem settled_mem_hospital {wres : Hospital → Bool} {batch : List Hospital}
    {s : Settled} (hs : s ∈ (batch.map (sendWebhook wres)).filterMap id) :
    s.hospital ∈ batch ∧ s.accepted = wres s.hospital ∧ s.hospital.webhook.isSome = true := by
  rcases List.mem_filterMap.mp hs with ⟨o, ho, hid⟩
  rcases List.mem_map.mp ho with ⟨h, hh, hsend⟩
  cases o with
  | none => exact Option.noConfusion hid
  | some s0 =>
    have hs0 : s0 = s := Option.some.inj hid
    subst hs0
    rcases sendWebhook_eq_some hsend with ⟨h1, h2, h3⟩
    subst h1
    exact ⟨hh, h2, h3⟩

theorem accepted_settled_mem {wres : Hospital → Bool} {batch : List Hospital}
    {h0 : Hospital} (hmem : h0 ∈ batch) (hweb : h0.webhook.isSome = true)
    (hacc : wres h0 = true) :
    (⟨h0, true⟩ : Settled) ∈ (batch.map (sendWebhook wres)).filterMap id := by
  apply List.mem_filterMap.mpr
  refine ⟨some ⟨h0, true⟩, ?_, rfl⟩
  apply List.mem_map.mpr
  refine ⟨h0, hmem, ?_⟩
  unfold sendWebhook
  cases hw : h0.webhook with
  | none => rw [hw] at hweb; exact Bool.noConfusion hweb
  | some u => rw [hacc]

theorem runBatches_stops_after_accept (wres : Hospital → Bool) (wait : Nat)
    {B : List Hospital} {h0 : Hospital} (hmem : h0 ∈ B)
    (hweb : h0.webhook.isSome = true) (hacc : wres h0 = true) :
    ∀ (pre rest : List (List Hospital)) (log : List Attempt) (slept : Nat),
      runBatches wres wait (pre ++ B :: rest) log slept =
        runBatches wres wait (pre ++ [B]) log slept := by
  intro pre
  induction pre with
  | nil =>
    intro rest log slept
    simp only [List.nil_append]
    by_cases hnone : (B.map (sendWebhook wres)).any Option.isNone
    · simp only [runBatches]
      rw [if_pos hnone, if_pos hnone]
    · have hsv := accepted_settled_mem hmem hweb hacc
      cases hf : ((B.map (sendWebhook wres)).filterMap id).find? (fun s => s.accepted) with
      | none =>
        exact absurd (List.find?_eq_none.mp hf _ hsv) (by simp)
      | some s =>
        simp only [runBatches]
        rw [if_neg hnone, if_neg hnone, hf]
  | cons P pre ih =>
    intro rest log slept
    simp only [List.cons_append]
    by_cases hnone : (P.map (sendWebhook wres)).any Option.isNone
    · simp only [runBatches]
      rw [if_pos hnone, if_pos hnone]
    · cases hf : ((P.map (sendWebhook wres)).filterMap id).find? (fun s => s.accepted) with
      | some s =>
        simp only [runBatches]
        rw [if_neg hnone, if_neg hnone, hf]
      | none =>
        simp only [runBatches]
        rw [if_neg hnone, if_neg hnone, hf]
        exact ih rest _ _

theorem runBatches_accepted_spec (wres : Hospital → Bool) (wait : Nat) :
    ∀ (bs : List (List Hospital)) (log : List Attempt) (slept : Nat)
      (r : PhasedResult) (a : Hospital),
      runBatches wres wait bs log slept = Except.ok r →
      r.acceptedHospital = some a →
      a ∈ bs.flatten ∧ a.webhook.isSome = true ∧ wres a = true := by
  intro bs
  induction bs with
  | nil =>
    intro log slept r a hok hr
    simp only [runBatches] at hok
    have := Except.ok.inj hok
    subst this
    exact Option.noConfusion hr
  | cons batch rest ih =>
    intro log slept r a hok hr
    by_cases hnone : (batch.map (sendWebhook wres)).any Option.isNone
    · simp [runBatches, hnone] at hok
    · cases hf : ((batch.map (sendWebhook wres)).filterMap id).find? (fun s => s.accepted) with
      | some s =>
        simp only [runBatches, hnone, if_false, Bool.false_eq_true, hf] at hok
        have hrr := Except.ok.inj hok
        subst hrr
        simp only at hr
        have ha : s.hospital = a := Option.some.inj hr
        have hsacc : s.accepted = true := List.find?_some hf
        have hsmem := List.mem_of_find?_eq_some hf
        rcases settled_mem_hospital hsmem with ⟨hb, heq, hw⟩
        subst ha
        refine ⟨List.mem_flatten.mpr ⟨batch, by simp, hb⟩, hw, ?_⟩
        rw [← heq, hsacc]
      | none =>
        simp only [runBatches, hnone, if_false, Bool.false_eq_true, hf] at hok
        rcases ih _ _ _ _ hok hr with ⟨hmem, hw, hacc⟩
        exact ⟨List.mem_flatten.mpr (by
          rcases List.mem_flatten.mp hmem with ⟨l, hl, hal⟩
          exact ⟨l, by simp [hl], hal⟩), hw, hacc⟩

theorem webhookRecords_mem {wres : Hospital → Bool} {batch : List Hospital}
    {a : Attempt}
    (ha : a ∈ webhookRecords ((batch.map (sendWebhook wres)).filterMap id)) :
    a.hospital ∈ batch := by
  rcases List.mem_map.mp ha with ⟨s, hs, hrec⟩
  rcases settled_mem_hospital hs with ⟨hb, _, _⟩
  rw [← hrec]
  exact hb

theorem fallbackRecords_mem {batch : List Hospital} {a : Attempt}
    (ha : a ∈ fallbackRecords batch) : a.hospital ∈ batch := by
  rcases List.mem_map.mp ha with ⟨h, hh, hrec⟩
  rw [← hrec]
  exact hh

theorem runBatches_attempts_mem (wres : Hospital → Bool) (wait : Nat) :
    ∀ (bs : List (List Hospital)) (log : List Attempt) (slept : Nat)
      (r : PhasedResult),
      runBatches wres wait bs log slept = Except.ok r →
      ∀ a ∈ r.attempts, a ∈ log ∨ a.hospital ∈ bs.flatten := by
  intro bs
  induction bs with
  | nil =>
    intro log slept r hok a ha
    simp only [runBatches] at hok
    have := Except.ok.inj hok
    subst this
    exact Or.inl ha
  | cons batch rest ih =>
    intro log slept r hok a ha
    by_cases hnone : (batch.map (sendWebhook wres)).any Option.isNone
    · simp only [runBatches] at hok
      rw [if_pos hnone] at hok
      exact Except.noConfusion hok
    · simp only [runBatches] at hok
      rw [if_neg hnone] at hok
      cases hf : ((batch.map (sendWebhook wres)).filterMap id).find?
          (fun s => s.accepted) with
      | some s =>
        rw [hf] at hok
        have := Except.ok.inj hok
        subst this
        simp only at ha
        rcases List.mem_append.mp ha with hl | hw
        · exact Or.inl hl
        · exact Or.inr (List.mem_flatten.mpr ⟨batch, by simp, webhookRecords_mem hw⟩)
      | none =>
        rw [hf] at hok
        rcases ih _ _ _ hok a ha with hl | hr
        · rcases List.mem_append.mp hl with hl2 | hnew
          · rcases List.mem_append.mp hl2 with hl3 | hw
            · exact Or.inl hl3
            · exact Or.inr (List.mem_flatten.mpr ⟨batch, by simp, webhookRecords_mem hw⟩)
          · exact Or.inr
              (List.mem_flatten.mpr ⟨batch, by simp, fallbackRecords_mem hnew⟩)
        · rcases List.mem_flatten.mp hr with ⟨l, hl, hal⟩
          exact Or.inr (List.mem_flatten.mpr ⟨l, by simp [hl], hal⟩)

theorem runBatches_sleep (wres : Hospital → Bool) (wait : Nat) :
    ∀ (bs : List (List Hospital)) (log : List Attempt) (slept : Nat)
      (r : PhasedResult),
      runBatches wres wait bs log slept = Except.ok r →
      r.acceptedHospital = none →
      r.totalSleepMs = slept + wait * bs.length := by
  intro bs
  induction bs with
  | nil =>
    intro log slept r hok hn
    simp only [runBatches] at hok
    have := Except.ok.inj hok
    subst this
    simp
  | cons batch rest ih =>
    intro log slept r hok hn
    by_cases hnone : (batch.map (sendWebhook wres)).any Option.isNone
    · simp only [runBatches] at hok
      rw [if_pos hnone] at hok
      exact Except.noConfusion hok
    · simp only [runBatches] at hok
      rw [if_neg hnone] at hok
      cases hf : ((batch.map (sendWebhook wres)).filterMap id).find?
          (fun s => s.accepted) with
      | some s =>
        rw [hf] at hok
        have := Except.ok.inj hok
        subst this
        exact Option.noConfusion hn
      | none =>
        rw [hf] at hok
        have := ih _ _ _ hok hn
        rw [this, List.length_cons]
        ring

/-- Counterexample to C1: a batch in which hSecond reports a webhook
acceptance but which also contains a webhook-less facility.  The claim says
the dispatcher then returns outcome ACCEPTED(hSecond); the code instead
throws the logging TypeError before the acceptance is ever examined, so the
session dies with a 500 and no ACCEPTED outcome is produced. -/
theorem c1_mixed_batch_counterexample :
    runBatches wresSecond 90000 [[hNoChannel, hSecond]] [] 0 =
        Except.error JsError.typeError
    ∧ wresSecond hSecond = true
    ∧ hSecond.webhook.isSome = true := by
  refine ⟨rfl, rfl, rfl⟩

/-- C1 as amended: once some facility of a batch reports a webhook
acceptance and every facility of that batch has a webhook (so the batch
logging does not throw), the dispatcher stops there.  Conjuncts: the run is
insensitive to every batch after the accepting one (no later batch is ever
started); reaching that batch returns outcome ACCEPTED with an accepting
facility of the batch, the attempt log gaining only that batch of webhook
records and no further sleeping; and any returned acceptance, in any run,
is a candidate whose webhook actually accepted.  The outcome field holds at
most one facility by construction, so a session reaches a terminal outcome
at most once — at the accepting batch. -/
theorem c1_accept_returns (wres : Hospital → Bool) (wait : Nat)
    (B : List Hospital)
    (hall : ∀ h ∈ B, h.webhook.isSome = true)
    (hacc : ∃ h ∈ B, wres h = true) :
    (∀ (pre rest : List (List Hospital)) (log : List Attempt) (slept : Nat),
      runBatches wres wait (pre ++ B :: rest) log slept =
        runBatches wres wait (pre ++ [B]) log slept)
    ∧ (∀ (rest : List (List Hospital)) (log : List Attempt) (slept : Nat),
        ∃ a, a ∈ B ∧ wres a = true ∧ a.webhook.isSome = true ∧
          runBatches wres wait (B :: rest) log slept =
            Except.ok ⟨some a,
              log ++ webhookRecords ((B.map (sendWebhook wres)).filterMap id),
              slept⟩)
    ∧ (∀ (bs : List (List Hospital)) (log : List Attempt) (slept : Nat)
        (r : PhasedResult) (a : Hospital),
        runBatches wres wait bs log slept = Except.ok r →
        r.acceptedHospital = some a →
        a ∈ bs.flatten ∧ a.webhook.isSome = true ∧ wres a = true) := by
  obtain ⟨h0, hmem, hwr⟩ := hacc
  have hweb : h0.webhook.isSome = true := hall h0 hmem
  refine ⟨runBatches_stops_after_accept wres wait hmem hweb hwr, ?_,
    runBatches_accepted_spec wres wait⟩
  intro rest log slept
  have hnone : ¬ (B.map (sendWebhook wres)).any Option.isNone = true := by
    intro hany
    rcases List.any_eq_true.mp hany with ⟨o, ho, hno⟩
    rcases List.mem_map.mp ho with ⟨h, hh, hsend⟩
    have hw := hall h hh
    unfold sendWebhook at hsend
    cases hwc : h.webhook with
    | none => rw [hwc] at hw; exact Bool.noConfusion hw
    | some u =>
      rw [hwc] at hsend
      rw [← hsend] at hno
      exact Bool.noConfusion hno
  cases hf : ((B.map (sendWebhook wres)).filterMap id).find?
      (fun s => s.accepted) with
  | none =>
    have hsv := accepted_settled_mem hmem hweb hwr
    exact absurd (List.find?_eq_none.mp hf _ hsv) (by simp)
  | some s =>
    have hsacc : s.accepted = true := List.find?_some hf
    rcases settled_mem_hospital (List.mem_of_find?_eq_some hf) with ⟨hb, heq, hw⟩
    refine ⟨s.hospital, hb, by rw [← heq, hsacc], hw, ?_⟩
    simp only [runBatches]
    rw [if_neg hnone, hf]

/-- Witness for C1: with the second facility of a two-webhook batch
accepting, the run is insensitive to a dropped later batch, and the
concrete accepting run returns ACCEPTED(hSecond) with exactly that batch
of webhook records. -/
theorem c1_accept_returns_witness :
    (runBatches wresSecond 90000
        ([[hWebhook]] ++ [hWebhook, hSecond] :: [[hNoChannel]]) [] 0 =
      runBatches wresSecond 90000 ([[hWebhook]] ++ [[hWebhook, hSecond]]) [] 0)
    ∧ runBatches wresSecond 90000 [[hWebhook, hSecond]] [] 0 =
        Except.ok ⟨some hSecond,
          [⟨Channel.webhook, hWebhook, false⟩, ⟨Channel.webhook, hSecond, true⟩],
          0⟩ :=
  ⟨(c1_accept_returns wresSecond 90000 [hWebhook, hSecond] (by decide)
      ⟨hSecond, by decide, by decide⟩).1 [[hWebhook]] [[hNoChannel]] [] 0,
    rfl⟩

/-- Counterexample to C5: a single-hospital batch whose only attempt (the
webhook) has already completed without acceptance.  The claim says the
per-batch wait then ends without waiting out the full acceptance window;
the code nevertheless sleeps the entire default 90000 ms window (the
`setTimeout` is unconditional and no acceptance is ever re-checked). -/
theorem c5_full_window_counterexample :
    (notifyHospitalsPhased wresNobody none none [hWebhook]).map
        (fun r => (r.acceptedHospital, r.totalSleepMs)) =
      Except.ok (none, 90000) := rfl

/-- C5 as amended: whenever a dispatcher run ends without an acceptance, it
has slept the full acceptance window once per batch — the wait never ends
early on completion of the batch attempts, and only a webhook acceptance
gathered before the wait skips it (by returning). -/
theorem c5_sleep_full_window (wres : Hospital → Bool) (ob ow : Option Nat)
    (hospitals : List Hospital) (r : PhasedResult)
    (hok : notifyHospitalsPhased wres ob ow hospitals = Except.ok r)
    (hnone : r.acceptedHospital = none) :
    r.totalSleepMs = jsOrNat ow 90000 * (chunks (jsOrNat ob 3) hospitals).length := by
  unfold notifyHospitalsPhased at hok
  have := runBatches_sleep wres (jsOrNat ow 90000) _ _ _ _ hok hnone
  rw [this]
  omega

/-- Witness for C5: the unaccepted single-batch run slept 90000 ms,
which is the window times the one batch. -/
theorem c5_sleep_full_window_witness :
    (⟨none, [⟨Channel.webhook, hWebhook, false⟩, ⟨Channel.fallback, hWebhook, false⟩],
        90000⟩ : PhasedResult).totalSleepMs =
      jsOrNat none 90000 * (chunks (jsOrNat none 3) [hWebhook]).length :=
  c5_sleep_full_window wresNobody none none [hWebhook] _ rfl rfl

/-- C10: the `/notify-hospitals` route escalates over
`[nearest, ...alternatives].slice(0, 50)`: that list never exceeds 50
facilities, it is exactly what the dispatcher receives, and every attempt
record and any accepted hospital of the run refer only to facilities inside
those first 50 — facilities beyond position 50 are never attempted. -/
theorem c10_truncate_fifty (wres : Hospital → Bool) (nearest : Hospital)
    (alternatives : List Hospital) :
    (notifyRouteList nearest alternatives).length ≤ 50
    ∧ (∀ r : PhasedResult,
        notifyHospitalsPhased wres (some 3) (some 90000)
            (notifyRouteList nearest alternatives) = Except.ok r →
        (∀ a ∈ r.attempts, a.hospital ∈ notifyRouteList nearest alternatives)
        ∧ (∀ h, r.acceptedHospital = some h →
            h ∈ notifyRouteList nearest alternatives)) := by
  constructor
  · simp [notifyRouteList]
  · intro r hok
    have hflat : (chunks (jsOrNat (some 3) 3)
        (notifyRouteList nearest alternatives)).flatten =
        notifyRouteList nearest alternatives :=
      chunksGo_flatten _ _ _ le_rfl
    constructor
    · intro a ha
      unfold notifyHospitalsPhased at hok
      rcases runBatches_attempts_mem wres _ _ _ _ _ hok a ha with hl | hr
      · exact absurd hl (List.not_mem_nil a)
      · rw [hflat] at hr
        exact hr
    · intro h hacc
      unfold notifyHospitalsPhased at hok
      rcases runBatches_accepted_spec wres _ _ _ _ _ _ hok hacc with ⟨hmem, _, _⟩
      rw [hflat] at hmem
      exact hmem

/-- Witness for C10: in a concrete run the hospital of the first logged
attempt is inside the truncated candidate list. -/
theorem c10_truncate_fifty_witness :
    (⟨Channel.webhook, hWebhook, false⟩ : Attempt).hospital ∈
      notifyRouteList hWebhook [] :=
  ((c10_truncate_fifty wresNobody hWebhook []).2
      ⟨none, [⟨Channel.webhook, hWebhook, false⟩, ⟨Channel.fallback, hWebhook, false⟩],
        90000⟩ rfl).1
    ⟨Channel.webhook, hWebhook, false⟩ (by decide)

/-! ### Fixtures for the lookup-route claims -/

/-- An element whose name carries none of the cardio keywords
(and, because it lacks the substring "hospital", fails the name regex). -/
def clinicEl : RtEl := ⟨some ⟨some "City Clinic", none⟩⟩

/-- The same non-matching facility as seen by the heart-name filter. -/
def clinicTags : OsmTags := ⟨some "Green Valley Clinic", none⟩

/-- A duplicate-prone Overpass element for the server1 ranking pipeline. -/
def alphaEl : S1El := ⟨1, some "Alpha Hospital", some 10, some 20, none, none⟩

/-- A facility with id 2, located at the same point as gammaEl. -/
def betaEl : S1El := ⟨2, some "Beta Hospital", some 10, some 20, none, none⟩

/-- A facility with id 5, located at the same point as betaEl. -/
def gammaEl : S1El := ⟨5, some "Gamma Hospital", some 10, some 20, none, none⟩

/-- A concrete stand-in for the abstracted haversine used by the
counterexample: it projects the facility latitude.  Like any function of
the coordinates — the haversine included — it assigns equal distances to
facilities at identical coordinates, which is all the tie in the
counterexample needs; it avoids rational arithmetic so that the kernel can
evaluate the whole pipeline. -/
def distProj : ℚ → ℚ → ℚ → ℚ → ℚ := fun _ _ la2 _ => la2

/-- Counterexample to C2: a non-empty candidate list none of whose members
passes the cardio filter.  The claim says ranking then relaxes the filter
and uses the unfiltered list; the code instead answers
"No IHD-capable hospitals nearby." and produces no candidate at all. -/
theorem c2_no_relax_counterexample :
    realtimeHospital [clinicEl] = RealtimeOutcome.noIhdCapable ∧
      realtimeHospital [clinicEl] ≠ RealtimeOutcome.result clinicEl := by
  constructor
  · decide
  · decide

/-- C2 as amended: the capability filter is never relaxed.  Whenever the
cardio filter leaves zero candidates on a non-empty input, the
`/realtime-hospital` route reports no capable hospital, and the
cardio-name variant of `/nearest-hospital` reports that no heart facility
was found — neither falls back to the unfiltered list. -/
theorem c2_never_relax (els : List RtEl) (els2 : List OsmTags)
    (hne : els ≠ [])
    (h1 : els.filter rtCardioTest = [])
    (h2 : els2.filter heartNameTest = []) :
    realtimeHospital els = RealtimeOutcome.noIhdCapable ∧
      nearestHeart els2 = HeartLookupOutcome.noneFound := by
  constructor
  · unfold realtimeHospital
    rw [if_neg (by simpa using hne), h1]
  · unfold nearestHeart
    rw [h2]

/-- Witness for C2 on concrete non-matching facilities. -/
theorem c2_never_relax_witness :
    realtimeHospital [clinicEl] = RealtimeOutcome.noIhdCapable ∧
      nearestHeart [clinicTags] = HeartLookupOutcome.noneFound :=
  c2_never_relax [clinicEl] [clinicTags] (by decide) (by decide) (by decide)

/-- Counterexample to C4.  First conjunct: two candidates with the same
facility id survive ranking side by side — duplicate ids are not collapsed
to the first occurrence (the claimed deduplicated permutation would keep
one element).  Second conjunct: two equidistant facilities — they sit at
identical coordinates, so every distance function, the haversine included,
ties them — with ids 5 and 2 come out in input order 5, 2; the claimed
tie-break by facility id would order them 2, 5. -/
theorem c4_duplicate_ids_counterexample :
    (s1Response distProj 0 0 [alphaEl, alphaEl]).map S1H.id = [1, 1]
    ∧ (s1Response distProj 0 0 [gammaEl, betaEl]).map S1H.id = [5, 2] := by
  refine ⟨by decide, by decide⟩

/-- C4 as amended: for every distance function, origin and element list,
both `/nearest-hospital` ranking pipelines return a permutation of their
mapped-and-coordinate-filtered input (duplicates retained, nothing
deduplicated, so the ordering key is the computed distance alone with no
id tie-break), sorted by non-decreasing computed distance; the server1.js
response is the first 30 entries of that list and the server.js response
is its first 3. -/
theorem c4_rank_sorted_perm (dist : ℚ → ℚ → ℚ → ℚ → ℚ) (qlat qlon : ℚ)
    (els : List S1El) (els2 : List NhEl) :
    (s1Ranked dist qlat qlon els).Perm (s1WithDist dist qlat qlon els)
    ∧ List.Sorted distLE (s1Ranked dist qlat qlon els)
    ∧ s1Response dist qlat qlon els = (s1Ranked dist qlat qlon els).take 30
    ∧ (nhRanked dist qlat qlon els2).Perm (nhFiltered dist qlat qlon els2)
    ∧ List.Sorted nhLE (nhRanked dist qlat qlon els2)
    ∧ nhResponse dist qlat qlon els2 = (nhRanked dist qlat qlon els2).take 3 :=
  ⟨List.perm_insertionSort distLE (s1WithDist dist qlat qlon els),
    List.sorted_insertionSort distLE (s1WithDist dist qlat qlon els), rfl,
    List.perm_insertionSort nhLE (nhFiltered dist qlat qlon els2),
    List.sorted_insertionSort nhLE (nhFiltered dist qlat qlon els2), rfl⟩

/-- Counterexample to C8: latitude 999 is outside −90..90, yet the check
lets the request through to the Overpass lookup and ranking — no range
validation exists, only a falsiness presence check. -/
theorem c8_out_of_range_counterexample :
    nearestHospitalCheck (some "999") (some "10") = QueryCheck.proceeds "999" "10" ∧
      nearestHospitalCheck (some "999") (some "10") ≠ QueryCheck.inputError := by
  constructor
  · decide
  · decide

/-- C8 as amended: the routes reject a request before any lookup or ranking
work exactly when a coordinate is missing by JS falsiness (absent or the
empty string); no range validation is performed, so out-of-range values
proceed. -/
theorem c8_reject_iff_missing (lat lon : Option String) :
    nearestHospitalCheck lat lon = QueryCheck.inputError ↔
      (jsTruthyStr lat = false ∨ jsTruthyStr lon = false) := by
  unfold nearestHospitalCheck
  by_cases h1 : jsTruthyStr lat <;> by_cases h2 : jsTruthyStr lon <;>
    simp [h1, h2]

/-- Counterexample to C9: a caller on the prime meridian sends `lon=0`;
Express delivers the non-empty string "0", which is truthy, so the request
is served — not rejected as a missing coordinate as the claim states. -/
theorem c9_zero_coordinate_counterexample :
    nearestHospitalCheck (some "12.9") (some "0") = QueryCheck.proceeds "12.9" "0" ∧
      nearestHospitalCheck (some "12.9") (some "0") ≠ QueryCheck.inputError := by
  constructor
  · decide
  · decide

/-- C9 as amended: the presence check applies JS falsiness to the raw query
strings, so only an absent or empty parameter is rejected; a coordinate
equal to 0 arrives as the non-empty (hence truthy) string "0" and the
lookup proceeds for callers on the equator or prime meridian. -/
theorem c9_zero_string_truthy (lat lon : String)
    (hlat : lat ≠ "") (hlon : lon ≠ "") :
    nearestHospitalCheck (some lat) (some lon) = QueryCheck.proceeds lat lon := by
  unfold nearestHospitalCheck jsTruthyStr
  simp only [bne_iff_ne, ne_eq]
  rw [if_pos]
  · rfl
  · simp [hlat, hlon]

/-- Witness for C9 at the equator/prime-meridian coordinate. -/
theorem c9_zero_string_truthy_witness :
    nearestHospitalCheck (some "0") (some "0") = QueryCheck.proceeds "0" "0" :=
  c9_zero_string_truthy "0" "0" (by decide) (by decide)

end PulseResQ
